import Mathlib

/-!
Verification of the nested-navigator library (NestedNavigator.ts).

The library wraps an arbitrary JavaScript value in a fluent navigator and
exposes dot-path traversal (navigateTo), array search helpers (find, filter,
getIndex, getLength) driven by a comparison routine (compare), and a terminal
accessor (value).

We shallowly embed the JavaScript runtime values the library manipulates and
translate each method from the source.  Modelling choices, each noted at the
definition it concerns:
- numbers are modelled as integers (the claims under study do not depend on
  IEEE-754 specifics such as NaN or Infinity);
- function-valued properties (array and object prototype methods) are not
  modelled: reading such a key yields the undefined marker;
- reference identity of objects and arrays is not modelled, so strict
  equality between two compound values is modelled as false (the behaviour
  of distinct references, the only case the claims exercise);
- a thrown TypeError is modelled as the error case of an Except value.
-/

/-- Model of a JavaScript runtime value as the library sees one: the
undefined marker, null, booleans, numbers (modelled as integers), strings,
arrays and plain string-keyed objects. -/
inductive JVal where
  | undef : JVal
  | null : JVal
  | bool : Bool → JVal
  | num : Int → JVal
  | str : String → JVal
  | arr : List JVal → JVal
  | obj : List (String × JVal) → JVal

/-- Tests for the undefined marker, modelling a JS strict comparison with
undefined. -/
def JVal.isUndef : JVal → Bool
  | JVal.undef => true
  | _ => false

/-- Models the JS Array.isArray test. -/
def JVal.isArr : JVal → Bool
  | JVal.arr _ => true
  | _ => false

/-- Models the JS test typeof v === "number". -/
def JVal.isNum : JVal → Bool
  | JVal.num _ => true
  | _ => false

/-- Models the JS test typeof v === "object", which is true for null, arrays
and plain objects, and false for undefined, booleans, numbers and strings. -/
def typeofIsObject : JVal → Bool
  | JVal.null => true
  | JVal.arr _ => true
  | JVal.obj _ => true
  | _ => false

/-- Models JS strict equality (===) on the embedded values: structural on
primitives, false across types.  Reference identity is not modelled, so two
compound operands compare as false, the behaviour of distinct references. -/
def jsStrictEq : JVal → JVal → Bool
  | JVal.undef, JVal.undef => true
  | JVal.null, JVal.null => true
  | JVal.bool x, JVal.bool y => x == y
  | JVal.num x, JVal.num y => x == y
  | JVal.str x, JVal.str y => x == y
  | _, _ => false

/-- Models the regular-expression test of navigateTo: the key consists of one
or more decimal digits (leading zeros allowed). -/
def isDigits (s : String) : Bool :=
  !s.data.isEmpty && s.data.all Char.isDigit

/-- Models parseInt(s, 10) on an all-digit string: its decimal value. -/
def digitsToNat (s : String) : Nat :=
  s.data.foldl (fun n c => n * 10 + (c.toNat - 48)) 0

/-- Models the canonical-array-index test JS applies to a property key during
ordinary bracket access: the decimal representation of the index with no
leading zeros. -/
def isCanonicalIndex (s : String) : Bool :=
  match s.data with
  | [] => false
  | [c] => c.isDigit
  | c :: rest => c.isDigit && c != '0' && rest.all Char.isDigit

/-- Models JS element access arr[n] on an embedded array: the element at the
zero-based position n, or the undefined marker when n is out of bounds. -/
def jsElem (xs : List JVal) (n : Nat) : JVal :=
  xs.getD n JVal.undef

/-- Models the JS abstract ToString conversion, used when a non-string value
is supplied where a property key is expected (getIndex record mode applies it
to keyOrValue via the expression item[keyOrValue as string]). -/
def jsToString : JVal → String
  | JVal.undef => "undefined"
  | JVal.null => "null"
  | JVal.bool b => cond b ("true") ("false")
  | JVal.num n => toString n
  | JVal.str s => s
  | JVal.arr xs => String.intercalate (",") (jsJoinParts xs)
  | JVal.obj _ => "[object Object]"
where
  /-- Models the per-element conversion of Array.prototype.join: null and
  undefined become the empty string. -/
  jsJoinParts : List JVal → List String
  | [] => []
  | JVal.undef :: rest => "" :: jsJoinParts rest
  | JVal.null :: rest => "" :: jsJoinParts rest
  | v :: rest => jsToString v :: jsJoinParts rest

/-- Models the JS property read v[key] on a receiver that is neither null nor
undefined.  Strings expose length and character positions, arrays expose
length and their canonical element indices, objects expose their own fields;
every other key (including prototype methods, which are not modelled) yields
the undefined marker. -/
def getPropPure : JVal → String → JVal
  | JVal.bool _, _ => JVal.undef
  | JVal.num _, _ => JVal.undef
  | JVal.str s, key =>
      if key = "length" then JVal.num (Int.ofNat s.length)
      else if isCanonicalIndex key then
        match s.data.get? (digitsToNat key) with
        | some c => JVal.str (String.singleton c)
        | none => JVal.undef
      else JVal.undef
  | JVal.arr xs, key =>
      if key = "length" then JVal.num (Int.ofNat xs.length)
      else if isCanonicalIndex key then jsElem xs (digitsToNat key)
      else JVal.undef
  | JVal.obj fields, key => (fields.lookup key).getD JVal.undef
  | _, _ => JVal.undef

/-- Models the JS property read v[key] in full: reading a property from null
or undefined throws a TypeError, modelled as the error case. -/
def getProp : JVal → String → Except Unit JVal
  | JVal.undef, _ => Except.error ()
  | JVal.null, _ => Except.error ()
  | v, key => Except.ok (getPropPure v key)

/-- Total variant of getProp used in statements: the read value, or the
undefined marker when the read would throw. -/
def getPropD (v : JVal) (key : String) : JVal :=
  match getProp v key with
  | Except.ok w => w
  | Except.error _ => JVal.undef

/-- Models one step of the reduce inside navigateTo: an undefined accumulator
short-circuits to undefined; an all-digit key on an array accumulator is
parsed with parseInt and used as an element index; every other case is an
ordinary property read (which throws on a null accumulator). -/
def navRed (acc : JVal) (key : String) : Except Unit JVal :=
  if acc.isUndef then Except.ok JVal.undef
  else
    match acc with
    | JVal.arr xs =>
        if isDigits key then Except.ok (jsElem xs (digitsToNat key))
        else getProp acc key
    | _ => getProp acc key

/-- Models String.prototype.split with the literal one-character separator
used by navigateTo, as a recursion over the character list. -/
def splitDotAux : List Char → List Char → List (List Char)
  | [], acc => [acc.reverse]
  | c :: rest, acc =>
      if c = '.' then acc.reverse :: splitDotAux rest []
      else splitDotAux rest (c :: acc)

/-- Models keyPath.split(".") of navigateTo; on the empty string it yields the
one-element list holding the empty segment, as in JS. -/
def jsSplitDots (s : String) : List String :=
  (splitDotAux s.data []).map String.mk

/-- Models the body of navigateTo at the value level: split the path on dots
and fold navRed over the segments starting from the current value; a thrown
TypeError propagates. -/
def navigateValue (current : JVal) (keyPath : String) : Except Unit JVal :=
  List.foldlM navRed current (jsSplitDots keyPath)

/-- Model of the NestedNavigator class: the retained root value and the
current value of the navigation. -/
structure NestedNavigator where
  obj : JVal
  current : JVal

/-- Models the entry point navigator(obj), wrapping the root value as its own
current value. -/
def navigator (v : JVal) : NestedNavigator :=
  NestedNavigator.mk v v

/-- Models the value() accessor: returns the current value unchanged. -/
def NestedNavigator.value (n : NestedNavigator) : JVal :=
  n.current

/-- Models the navigateTo method: traverse from the current value and wrap
the outcome with the same retained root. -/
def NestedNavigator.navigateTo (n : NestedNavigator) (keyPath : String) :
    Except Unit NestedNavigator :=
  (navigateValue n.current keyPath).map (fun v => NestedNavigator.mk n.obj v)

/-- Models the private compare method: strict equality and its negation for
equals and not_equals, ordering only when both operands are numbers, and
false for any operation token outside the six cases (the switch default). -/
def NestedNavigator.compare (a b : JVal) (operation : String) : Bool :=
  if operation = "equals" then jsStrictEq a b
  else if operation = "not_equals" then !(jsStrictEq a b)
  else if operation = "greater_than" then
    match a, b with
    | JVal.num x, JVal.num y => decide (x > y)
    | _, _ => false
  else if operation = "less_than" then
    match a, b with
    | JVal.num x, JVal.num y => decide (x < y)
    | _, _ => false
  else if operation = "greater_than_or_equal" then
    match a, b with
    | JVal.num x, JVal.num y => decide (x ≥ y)
    | _, _ => false
  else if operation = "less_than_or_equal" then
    match a, b with
    | JVal.num x, JVal.num y => decide (x ≤ y)
    | _, _ => false
  else false

/-- Models this.current.find(item => this.compare(item[key], value, operation))
of the find method: the first element whose read property satisfies the
comparison, scanning in order; a property read that throws (a null or
undefined element) propagates the TypeError. -/
def findCompare (key : String) (mv : JVal) (op : String) :
    List JVal → Except Unit (Option JVal)
  | [] => Except.ok none
  | item :: rest =>
      match getProp item key with
      | Except.error e => Except.error e
      | Except.ok v =>
          if NestedNavigator.compare v mv op then Except.ok (some item)
          else findCompare key mv op rest

/-- Models the body of the find method at the value level: a non-array
current value degrades to the undefined marker, otherwise the first matching
element, or the undefined marker when Array.prototype.find finds none. -/
def findValue (current : JVal) (key : String) (mv : JVal) (op : String) :
    Except Unit JVal :=
  match current with
  | JVal.arr xs =>
      match findCompare key mv op xs with
      | Except.error e => Except.error e
      | Except.ok r => Except.ok (r.getD JVal.undef)
  | _ => Except.ok JVal.undef

/-- Models this.current.filter(item => this.compare(item[key], value,
operation)) of the filter method: the matching elements in their original
order; a property read that throws propagates the TypeError. -/
def filterCompare (key : String) (mv : JVal) (op : String) :
    List JVal → Except Unit (List JVal)
  | [] => Except.ok []
  | item :: rest =>
      match getProp item key with
      | Except.error e => Except.error e
      | Except.ok v =>
          match filterCompare key mv op rest with
          | Except.error e => Except.error e
          | Except.ok tail =>
              Except.ok (if NestedNavigator.compare v mv op then item :: tail else tail)

/-- Models the body of the filter method at the value level: a non-array
current value degrades to the undefined marker, otherwise the array of
matching elements (possibly empty). -/
def filterValue (current : JVal) (key : String) (mv : JVal) (op : String) :
    Except Unit JVal :=
  match current with
  | JVal.arr xs =>
      match filterCompare key mv op xs with
      | Except.error e => Except.error e
      | Except.ok found => Except.ok (JVal.arr found)
  | _ => Except.ok JVal.undef

/-- Models this.current.findIndex(item => this.compare(item, keyOrValue,
operation)) of the getIndex primitive mode, with the running zero-based
position as an accumulator; -1 when no element matches. -/
def findIndexPrim (keyOrValue : JVal) (op : String) :
    List JVal → Nat → Int
  | [], _ => -1
  | item :: rest, i =>
      if NestedNavigator.compare item keyOrValue op then Int.ofNat i
      else findIndexPrim keyOrValue op rest (i + 1)

/-- Models this.current.findIndex(item => this.compare(item[keyOrValue],
value, operation)) of the getIndex record mode; -1 when no element matches,
and a property read that throws propagates the TypeError. -/
def findIndexKey (key : String) (mv : JVal) (op : String) :
    List JVal → Nat → Except Unit Int
  | [], _ => Except.ok (-1)
  | item :: rest, i =>
      match getProp item key with
      | Except.error e => Except.error e
      | Except.ok v =>
          if NestedNavigator.compare v mv op then Except.ok (Int.ofNat i)
          else findIndexKey key mv op rest (i + 1)

/-- Models the body of the getIndex method at the value level: undefined
(none) for a non-array current value; otherwise primitive mode when typeof
keyOrValue is not object and the match value is undefined, and record mode
(reading the property named by the ToString of keyOrValue) in every other
case. -/
def getIndexValue (current : JVal) (keyOrValue : JVal) (mv : JVal)
    (op : String) : Except Unit (Option Int) :=
  match current with
  | JVal.arr xs =>
      if !typeofIsObject keyOrValue && mv.isUndef then
        Except.ok (some (findIndexPrim keyOrValue op xs 0))
      else
        match findIndexKey (jsToString keyOrValue) mv op xs 0 with
        | Except.error e => Except.error e
        | Except.ok i => Except.ok (some i)
  | _ => Except.ok none

/-- Models the body of the getLength method: the array length, or undefined
(none) for a non-array current value. -/
def getLengthValue : JVal → Option Int
  | JVal.arr xs => some (Int.ofNat xs.length)
  | _ => none

/-- Models the find method (the operation parameter defaults to "equals" at
call sites): the result current value wrapped with the same retained root. -/
def NestedNavigator.find (n : NestedNavigator) (key : String) (mv : JVal)
    (op : String) : Except Unit NestedNavigator :=
  (findValue n.current key mv op).map (fun v => NestedNavigator.mk n.obj v)

/-- Models the filter method (the operation parameter defaults to "equals" at
call sites): the result current value wrapped with the same retained root. -/
def NestedNavigator.filter (n : NestedNavigator) (key : String) (mv : JVal)
    (op : String) : Except Unit NestedNavigator :=
  (filterValue n.current key mv op).map (fun v => NestedNavigator.mk n.obj v)

/-- Models the getIndex method (the operation parameter defaults to "equals"
and the value parameter to undefined at call sites): a plain number or
undefined, not a Navigator. -/
def NestedNavigator.getIndex (n : NestedNavigator) (keyOrValue : JVal)
    (mv : JVal) (op : String) : Except Unit (Option Int) :=
  getIndexValue n.current keyOrValue mv op

/-- Models the getLength method: a plain number or undefined, not a
Navigator. -/
def NestedNavigator.getLength (n : NestedNavigator) : Option Int :=
  getLengthValue n.current

/-- List of the four ordering operation tokens of the comparison routine. -/
def orderingOps : List String :=
  ["greater_than", "less_than", "greater_than_or_equal", "less_than_or_equal"]

/-- List of all six operation tokens of the comparison routine. -/
def comparisonOps : List String :=
  "equals" :: "not_equals" :: orderingOps

/-- The mathematical ordering named by an ordering operation token. -/
def orderHolds (op : String) (x y : Int) : Bool :=
  if op = "greater_than" then decide (x > y)
  else if op = "less_than" then decide (x < y)
  else if op = "greater_than_or_equal" then decide (x ≥ y)
  else decide (x ≤ y)

/-- Tests for the null marker, modelling a JS strict comparison with null. -/
def JVal.isNull : JVal → Bool
  | JVal.null => true
  | _ => false

/-- Tests for a plain object value. -/
def JVal.isObj : JVal → Bool
  | JVal.obj _ => true
  | _ => false

/-- A Bool test for isUndef unfolds to a propositional equation with the
undefined marker. -/
theorem isUndef_iff (v : JVal) : v.isUndef = true ↔ v = JVal.undef := by
  cases v <;> simp [JVal.isUndef]

/-- Reading a property from any value other than null and undefined never
throws: it returns the total read. -/
theorem getProp_ok (v : JVal) (key : String)
    (h : (v.isNull || v.isUndef) = false) :
    getProp v key = Except.ok (getPropD v key) := by
  cases v <;> simp_all [JVal.isNull, JVal.isUndef] <;> rfl

/-- The find callback of the source scans for the first readable match: on a
list of readable elements it equals the pure first-match search. -/
theorem findCompare_ok (key : String) (mv : JVal) (op : String)
    (xs : List JVal) (h : ∀ item ∈ xs, (item.isNull || item.isUndef) = false) :
    findCompare key mv op xs =
      Except.ok (xs.find?
        (fun item => NestedNavigator.compare (getPropD item key) mv op)) := by
  induction xs with
  | nil => rfl
  | cons x rest ih =>
      have hx := h x (List.mem_cons_self x rest)
      have hrest : ∀ item ∈ rest, (item.isNull || item.isUndef) = false :=
        fun item hm => h item (List.mem_cons_of_mem x hm)
      simp only [findCompare, getProp_ok x key hx, List.find?_cons]
      by_cases hc : NestedNavigator.compare (getPropD x key) mv op = true
      · simp [hc]
      · simp only [Bool.not_eq_true] at hc
        simp [hc, ih hrest]

/-- The filter callback of the source keeps exactly the readable matches in
order: on a list of readable elements it equals the pure filter. -/
theorem filterCompare_ok (key : String) (mv : JVal) (op : String)
    (xs : List JVal) (h : ∀ item ∈ xs, (item.isNull || item.isUndef) = false) :
    filterCompare key mv op xs =
      Except.ok (xs.filter
        (fun item => NestedNavigator.compare (getPropD item key) mv op)) := by
  induction xs with
  | nil => rfl
  | cons x rest ih =>
      have hx := h x (List.mem_cons_self x rest)
      have hrest : ∀ item ∈ rest, (item.isNull || item.isUndef) = false :=
        fun item hm => h item (List.mem_cons_of_mem x hm)
      simp only [filterCompare, getProp_ok x key hx, ih hrest, List.filter_cons]

/-- The primitive-mode index scan equals the pure first-index search started
at the same position, with -1 for no match. -/
theorem findIndexPrim_spec (keyOrValue : JVal) (op : String) (xs : List JVal)
    (i : Nat) :
    findIndexPrim keyOrValue op xs i =
      (match xs.findIdx?
          (fun item => NestedNavigator.compare item keyOrValue op) i with
        | some j => Int.ofNat j
        | none => -1) := by
  induction xs generalizing i with
  | nil => simp [findIndexPrim, List.findIdx?_nil]
  | cons x rest ih =>
      rw [findIndexPrim, List.findIdx?_cons]
      by_cases hc : NestedNavigator.compare x keyOrValue op = true
      · simp [hc]
      · simp only [Bool.not_eq_true] at hc
        rw [ih (i + 1)]
        simp [hc]

/-- The record-mode index scan on readable elements equals the pure
first-index search over the read properties, with -1 for no match. -/
theorem findIndexKey_ok (key : String) (mv : JVal) (op : String)
    (xs : List JVal) (i : Nat)
    (h : ∀ item ∈ xs, (item.isNull || item.isUndef) = false) :
    findIndexKey key mv op xs i =
      Except.ok (match xs.findIdx?
          (fun item => NestedNavigator.compare (getPropD item key) mv op) i with
        | some j => Int.ofNat j
        | none => -1) := by
  induction xs generalizing i with
  | nil => simp [findIndexKey, List.findIdx?_nil]
  | cons x rest ih =>
      have hx := h x (List.mem_cons_self x rest)
      have hrest : ∀ item ∈ rest, (item.isNull || item.isUndef) = false :=
        fun item hm => h item (List.mem_cons_of_mem x hm)
      rw [findIndexKey, getProp_ok x key hx, List.findIdx?_cons]
      by_cases hc : NestedNavigator.compare (getPropD x key) mv op = true
      · simp [hc]
      · simp only [Bool.not_eq_true] at hc
        rw [ih (i + 1) hrest]
        simp [hc]

/-- Strict equality against the undefined marker is the isUndef test. -/
theorem jsStrictEq_undef_right (v : JVal) :
    jsStrictEq v JVal.undef = v.isUndef := by
  cases v <;> rfl

/-- C1: the claim states that navigateTo never raises a fault and represents
any unresolved path by the absent marker.  The code contradicts this (and the
class documentation above navigateTo, which promises that a step leading to
null is handled safely): with root an object whose field a holds null and
path "a.b", the second segment reads a property from a null accumulator and
throws a TypeError, modelled as the error outcome. -/
theorem navigateTo_faults_reading_through_null :
    (navigator (JVal.obj [("a", JVal.null)])).navigateTo ("a.b")
      = Except.error () := rfl

/-- C2: a present null reached at the end of a path is returned by value()
as null, which is distinct from the undefined marker (first two conjuncts,
the half of the claim the code satisfies); but a segment that must read a
further property from a null accumulator throws a TypeError instead of
degrading to the absent marker (third conjunct, the code bug). -/
theorem null_at_end_ok_but_reading_from_null_faults :
    ((navigator (JVal.obj [("n", JVal.null)])).navigateTo ("n")).map
        NestedNavigator.value = Except.ok JVal.null
    ∧ JVal.null ≠ JVal.undef
    ∧ (navigator JVal.null).navigateTo ("x") = Except.error () :=
  ⟨rfl, fun h => JVal.noConfusion h, rfl⟩

/-- C8: an all-digit path segment on an array accumulator is a zero-based,
bounds-checked element index — on the array [10,20,30] the path "1" yields
20 and the path "5" yields the undefined marker — while on a non-array
accumulator (an object) the same segment is read as a property key of that
literal name. -/
theorem digit_segment_indexing (xs : List JVal)
    (fields : List (String × JVal)) (k : String) :
    ((navigator (JVal.arr [JVal.num 10, JVal.num 20, JVal.num 30])).navigateTo
        ("1")).map NestedNavigator.value = Except.ok (JVal.num 20)
    ∧ ((navigator (JVal.arr [JVal.num 10, JVal.num 20, JVal.num 30])).navigateTo
        ("5")).map NestedNavigator.value = Except.ok JVal.undef
    ∧ (isDigits k = true →
        navRed (JVal.arr xs) k = Except.ok (jsElem xs (digitsToNat k)))
    ∧ (∀ h : digitsToNat k < xs.length,
        jsElem xs (digitsToNat k) = xs[digitsToNat k])
    ∧ (xs.length ≤ digitsToNat k → jsElem xs (digitsToNat k) = JVal.undef)
    ∧ navRed (JVal.obj fields) k
        = Except.ok ((fields.lookup k).getD JVal.undef) := by
  refine ⟨rfl, rfl, ?_, ?_, ?_, rfl⟩
  · intro hd
    simp [navRed, JVal.isUndef, hd]
  · intro h
    simp [jsElem, List.getD_eq_getElem?_getD, List.getElem?_eq_getElem h]
  · intro h
    simp [jsElem, List.getD_eq_getElem?_getD, List.getElem?_eq_none h]

/-- Witness for C8 at concrete inputs: on the one-element array [7], the
digit segment "0" resolves to the element 7 and the digit segment "5" is out
of bounds and resolves to the undefined marker. -/
theorem digit_segment_indexing_witness :
    navRed (JVal.arr [JVal.num 7]) ("0")
        = Except.ok (jsElem [JVal.num 7] (digitsToNat ("0")))
    ∧ jsElem [JVal.num 7] (digitsToNat ("0")) = JVal.num 7
    ∧ navRed (JVal.arr [JVal.num 7]) ("5")
        = Except.ok (jsElem [JVal.num 7] (digitsToNat ("5")))
    ∧ jsElem [JVal.num 7] (digitsToNat ("5")) = JVal.undef := by
  have h1 := digit_segment_indexing [JVal.num 7] [] ("0")
  have h2 := digit_segment_indexing [JVal.num 7] [] ("5")
  exact ⟨h1.2.2.1 rfl, h1.2.2.2.1 (by decide), h2.2.2.1 rfl,
    h2.2.2.2.2.1 (by decide)⟩

/-- C3: when the current value is not an array, find and filter return a new
Navigator wrapping the undefined marker (with the same retained root), and
getIndex and getLength return the undefined marker directly, not wrapped. -/
theorem nonarray_queries_degrade (n : NestedNavigator) (key : String)
    (mv keyOrValue : JVal) (op : String) (h : n.current.isArr = false) :
    n.find key mv op = Except.ok (NestedNavigator.mk n.obj JVal.undef)
    ∧ n.filter key mv op = Except.ok (NestedNavigator.mk n.obj JVal.undef)
    ∧ n.getIndex keyOrValue mv op = Except.ok none
    ∧ n.getLength = none := by
  obtain ⟨o, c⟩ := n
  cases c <;> simp_all [NestedNavigator.find, NestedNavigator.filter,
    NestedNavigator.getIndex, NestedNavigator.getLength, findValue,
    filterValue, getIndexValue, getLengthValue, JVal.isArr, Except.map]

/-- Witness for C3 at a concrete non-array current value, the number 5. -/
theorem nonarray_queries_degrade_witness :
    (navigator (JVal.num 5)).find ("k") (JVal.num 1) ("equals")
        = Except.ok (NestedNavigator.mk (JVal.num 5) JVal.undef)
    ∧ (navigator (JVal.num 5)).filter ("k") (JVal.num 1) ("equals")
        = Except.ok (NestedNavigator.mk (JVal.num 5) JVal.undef)
    ∧ (navigator (JVal.num 5)).getIndex (JVal.num 1) JVal.undef ("equals")
        = Except.ok none
    ∧ (navigator (JVal.num 5)).getLength = none :=
  nonarray_queries_degrade (navigator (JVal.num 5)) ("k") (JVal.num 1)
    (JVal.num 1) ("equals") rfl

/-- C4: each of the four ordering operations evaluates to the mathematical
comparison when both operands are numbers, evaluates to false when either
operand is not a number, and any operation token outside the closed
six-token set evaluates to false. -/
theorem compare_ordering_and_closed_set (a b : JVal) (op : String)
    (x y : Int) (hop : op ∈ orderingOps) :
    NestedNavigator.compare (JVal.num x) (JVal.num y) op = orderHolds op x y
    ∧ ((a.isNum && b.isNum) = false → NestedNavigator.compare a b op = false)
    ∧ (∀ tok : String, tok ∉ comparisonOps →
        NestedNavigator.compare a b tok = false) := by
  have hops : op = "greater_than" ∨ op = "less_than" ∨
      op = "greater_than_or_equal" ∨ op = "less_than_or_equal" := by
    simpa [orderingOps] using hop
  refine ⟨?_, ?_, ?_⟩
  · rcases hops with h | h | h | h <;> subst h <;> rfl
  · intro hnum
    rcases hops with h | h | h | h <;> subst h <;> cases a <;> cases b <;>
      first
      | rfl
      | simp_all [JVal.isNum]
  · intro tok htok
    simp only [comparisonOps, orderingOps, List.mem_cons] at htok
    push_neg at htok
    obtain ⟨h1, h2, h3, h4, h5, h6, -⟩ := htok
    simp [NestedNavigator.compare, h1, h2, h3, h4, h5, h6]

/-- Witness for C4 at concrete inputs: 3 > 2 evaluates through the
comparison routine, a string operand forces false, and the token "between"
outside the closed set forces false. -/
theorem compare_ordering_and_closed_set_witness :
    NestedNavigator.compare (JVal.num 3) (JVal.num 2) ("greater_than")
        = orderHolds ("greater_than") 3 2
    ∧ NestedNavigator.compare (JVal.str ("abc")) (JVal.num 2) ("greater_than")
        = false
    ∧ NestedNavigator.compare (JVal.str ("abc")) (JVal.num 2) ("between")
        = false := by
  have h := compare_ordering_and_closed_set (JVal.str ("abc")) (JVal.num 2)
    ("greater_than") 3 2 (by decide)
  exact ⟨h.1, h.2.1 rfl, h.2.2 ("between") (by decide)⟩

/-- C5 counterexample: with matchValue omitted, the claim reads keyOrValue
equal to null (null is not a keyed record) as primitive mode, which on the
array [5] with the default equals operation would compare 5 against null and
return -1.  The code instead tests typeof keyOrValue, which is "object" for
null, so it takes record mode, reads element["null"] (undefined) and
compares it with the omitted matchValue (undefined), returning 0, not -1. -/
theorem getIndex_null_keyOrValue_record_mode :
    getIndexValue (JVal.arr [JVal.num 5]) JVal.null JVal.undef ("equals")
        = Except.ok (some 0)
    ∧ (Except.ok (some (0 : Int)) : Except Unit (Option Int))
        ≠ Except.ok (some (-1 : Int)) := by
  refine ⟨rfl, fun h => ?_⟩
  have h2 : some (0 : Int) = some (-1 : Int) := Except.ok.inj h
  exact absurd (Option.some.inj h2) (by decide)

/-- C5 amended: when the current value is an array (of readable elements),
getIndex compares the element itself against keyOrValue when matchValue is
omitted and typeof keyOrValue is not "object" (so null, arrays and keyed
records are excluded from primitive mode), and compares the element property
named by the ToString of keyOrValue against matchValue otherwise; it returns
the zero-based position of the first match, -1 (a present result, distinct
from the absent marker) when no element matches, and the absent marker only
when the current value is not an array. -/
theorem getIndex_dual_mode (xs : List JVal) (keyOrValue mv : JVal)
    (op : String) (c : JVal)
    (hread : ∀ item ∈ xs, (item.isNull || item.isUndef) = false) :
    ((!typeofIsObject keyOrValue && mv.isUndef) = true →
      getIndexValue (JVal.arr xs) keyOrValue mv op =
        Except.ok (some (match xs.findIdx?
            (fun item => NestedNavigator.compare item keyOrValue op) with
          | some j => Int.ofNat j
          | none => -1)))
    ∧ ((!typeofIsObject keyOrValue && mv.isUndef) = false →
      getIndexValue (JVal.arr xs) keyOrValue mv op =
        Except.ok (some (match xs.findIdx?
            (fun item => NestedNavigator.compare
              (getPropD item (jsToString keyOrValue)) mv op) with
          | some j => Int.ofNat j
          | none => -1)))
    ∧ (c.isArr = false → getIndexValue c keyOrValue mv op = Except.ok none)
    ∧ (∀ j : Int, (some j : Option Int) ≠ none) := by
  refine ⟨?_, ?_, ?_, fun j => Option.some_ne_none j⟩
  · intro hmode
    simp only [getIndexValue, hmode, if_true, findIndexPrim_spec]
  · intro hmode
    simp only [getIndexValue, hmode, Bool.false_eq_true, if_false,
      findIndexKey_ok (jsToString keyOrValue) mv op xs 0 hread]
  · intro hc
    cases c <;> simp_all [JVal.isArr, getIndexValue]

/-- Witness for C5 amended at concrete inputs: primitive mode finds 90 at
position 1 of [85,90], record mode finds the record with field v equal to 2
at position 1, and a non-array current value gives the absent marker. -/
theorem getIndex_dual_mode_witness :
    getIndexValue (JVal.arr [JVal.num 85, JVal.num 90]) (JVal.num 90)
        JVal.undef ("equals") = Except.ok (some 1)
    ∧ getIndexValue (JVal.arr [JVal.obj [("v", JVal.num 1)],
        JVal.obj [("v", JVal.num 2)]]) (JVal.str ("v")) (JVal.num 2)
        ("equals") = Except.ok (some 1)
    ∧ getIndexValue (JVal.num 7) (JVal.num 90) JVal.undef ("equals")
        = Except.ok none := by
  have h1 := getIndex_dual_mode [JVal.num 85, JVal.num 90] (JVal.num 90)
    JVal.undef ("equals") (JVal.num 7) (by decide)
  have h2 := getIndex_dual_mode [JVal.obj [("v", JVal.num 1)],
    JVal.obj [("v", JVal.num 2)]] (JVal.str ("v")) (JVal.num 2) ("equals")
    (JVal.num 7) (by decide)
  exact ⟨h1.1 rfl, h2.2.1 rfl, h1.2.2.1 rfl⟩

/-- C6: when the current value is an array (of readable elements), filter
returns a Navigator wrapping a new array holding exactly the elements whose
read property satisfies the comparison, in their original relative order;
on an empty source array, and on a present array with no matching element,
the result is the empty array, never the absent marker. -/
theorem filter_keeps_exact_matches (xs : List JVal) (key : String)
    (mv : JVal) (op : String)
    (h : ∀ item ∈ xs, (item.isNull || item.isUndef) = false) :
    filterValue (JVal.arr xs) key mv op =
      Except.ok (JVal.arr (xs.filter
        (fun item => NestedNavigator.compare (getPropD item key) mv op)))
    ∧ filterValue (JVal.arr []) key mv op = Except.ok (JVal.arr [])
    ∧ ((∀ item ∈ xs,
          NestedNavigator.compare (getPropD item key) mv op = false) →
        filterValue (JVal.arr xs) key mv op = Except.ok (JVal.arr []))
    ∧ (∀ l : List JVal, JVal.arr l ≠ JVal.undef) := by
  have hmain : filterValue (JVal.arr xs) key mv op =
      Except.ok (JVal.arr (xs.filter
        (fun item => NestedNavigator.compare (getPropD item key) mv op))) := by
    simp only [filterValue, filterCompare_ok key mv op xs h]
  refine ⟨hmain, rfl, ?_, fun l h2 => JVal.noConfusion h2⟩
  intro hnone
  rw [hmain, List.filter_eq_nil_iff.mpr (fun a ha => by simp [hnone a ha])]

/-- Witness for C6 at concrete inputs: filtering [{v:1},{v:2}] for v equal 2
keeps exactly {v:2}, the empty array filters to the empty array, and a
no-match filter gives the empty array. -/
theorem filter_keeps_exact_matches_witness :
    filterValue (JVal.arr [JVal.obj [("v", JVal.num 1)],
        JVal.obj [("v", JVal.num 2)]]) ("v") (JVal.num 2) ("equals")
        = Except.ok (JVal.arr [JVal.obj [("v", JVal.num 2)]])
    ∧ filterValue (JVal.arr []) ("v") (JVal.num 2) ("equals")
        = Except.ok (JVal.arr [])
    ∧ filterValue (JVal.arr [JVal.obj [("v", JVal.num 1)]]) ("v")
        (JVal.num 9) ("equals") = Except.ok (JVal.arr []) := by
  have h1 := filter_keeps_exact_matches [JVal.obj [("v", JVal.num 1)],
    JVal.obj [("v", JVal.num 2)]] ("v") (JVal.num 2) ("equals") (by decide)
  have h2 := filter_keeps_exact_matches [JVal.obj [("v", JVal.num 1)]] ("v")
    (JVal.num 9) ("equals") (by decide)
  exact ⟨h1.1, h1.2.1, h2.2.2.1 (by decide)⟩

/-- C7: when the current value is an array (of readable elements), find
returns a Navigator wrapping the first element in sequence order whose read
property satisfies the comparison, and wraps the undefined marker when no
element matches. -/
theorem find_first_match (xs : List JVal) (key : String) (mv : JVal)
    (op : String)
    (h : ∀ item ∈ xs, (item.isNull || item.isUndef) = false) :
    findValue (JVal.arr xs) key mv op =
      Except.ok ((xs.find?
        (fun item => NestedNavigator.compare (getPropD item key) mv op)).getD
        JVal.undef)
    ∧ (xs.find?
        (fun item => NestedNavigator.compare (getPropD item key) mv op)
          = none →
      findValue (JVal.arr xs) key mv op = Except.ok JVal.undef) := by
  have hmain : findValue (JVal.arr xs) key mv op =
      Except.ok ((xs.find?
        (fun item => NestedNavigator.compare (getPropD item key) mv op)).getD
        JVal.undef) := by
    simp only [findValue, findCompare_ok key mv op xs h]
  refine ⟨hmain, ?_⟩
  intro hnone
  rw [hmain, hnone]
  rfl

/-- Witness for C7 at the concrete inputs of the claim: find with the
default equals operation on [{k:1},{k:2}] with key k and matchValue 2
returns {k:2}, and with no matching element returns the undefined marker. -/
theorem find_first_match_witness :
    findValue (JVal.arr [JVal.obj [("k", JVal.num 1)],
        JVal.obj [("k", JVal.num 2)]]) ("k") (JVal.num 2) ("equals")
        = Except.ok (JVal.obj [("k", JVal.num 2)])
    ∧ findValue (JVal.arr [JVal.obj [("k", JVal.num 1)]]) ("k") (JVal.num 7)
        ("equals") = Except.ok JVal.undef := by
  have h1 := find_first_match [JVal.obj [("k", JVal.num 1)],
    JVal.obj [("k", JVal.num 2)]] ("k") (JVal.num 2) ("equals") (by decide)
  have h2 := find_first_match [JVal.obj [("k", JVal.num 1)]] ("k")
    (JVal.num 7) ("equals") (by decide)
  exact ⟨h1.1, h2.2 rfl⟩

/-- C9: chaining composes — rewrapping the observable current value of a
Navigator with the entry constructor and applying any operation yields the
same observable outcome as applying the operation to the Navigator itself,
for navigateTo, find, filter, getIndex and getLength. -/
theorem chaining_composes (n : NestedNavigator) (p key : String)
    (mv keyOrValue : JVal) (op : String) :
    ((navigator n.value).navigateTo p).map NestedNavigator.value
        = (n.navigateTo p).map NestedNavigator.value
    ∧ ((navigator n.value).find key mv op).map NestedNavigator.value
        = (n.find key mv op).map NestedNavigator.value
    ∧ ((navigator n.value).filter key mv op).map NestedNavigator.value
        = (n.filter key mv op).map NestedNavigator.value
    ∧ (navigator n.value).getIndex keyOrValue mv op
        = n.getIndex keyOrValue mv op
    ∧ (navigator n.value).getLength = n.getLength := by
  refine ⟨?_, ?_, ?_, rfl, rfl⟩
  · cases hx : navigateValue n.current p <;>
      simp [NestedNavigator.navigateTo, navigator, NestedNavigator.value,
        hx, Except.map]
  · cases hx : findValue n.current key mv op <;>
      simp [NestedNavigator.find, navigator, NestedNavigator.value, hx,
        Except.map]
  · cases hx : filterValue n.current key mv op <;>
      simp [NestedNavigator.filter, navigator, NestedNavigator.value, hx,
        Except.map]

/-- C10: with an array of records and matchValue the undefined marker under
the default equals operation, find returns the first element whose property
named key is absent or explicitly undefined (because comparing undefined
with undefined under equals is true), and filter returns the array of all
such elements; the last conjunct characterises the matched records through
their field list. -/
theorem find_filter_match_undefined (xs : List JVal) (key : String)
    (hobj : ∀ item ∈ xs, item.isObj = true) :
    findValue (JVal.arr xs) key JVal.undef ("equals") =
      Except.ok ((xs.find?
        (fun item => (getPropD item key).isUndef)).getD JVal.undef)
    ∧ filterValue (JVal.arr xs) key JVal.undef ("equals") =
      Except.ok (JVal.arr (xs.filter
        (fun item => (getPropD item key).isUndef)))
    ∧ NestedNavigator.compare JVal.undef JVal.undef ("equals") = true
    ∧ (∀ fields : List (String × JVal),
        ((getPropD (JVal.obj fields) key).isUndef = true ↔
          (fields.lookup key = none ∨ fields.lookup key = some JVal.undef))) := by
  have hread : ∀ item ∈ xs, (item.isNull || item.isUndef) = false := by
    intro item hm
    have hio := hobj item hm
    cases item <;> simp_all [JVal.isObj, JVal.isNull, JVal.isUndef]
  have hpred : (fun item => NestedNavigator.compare (getPropD item key)
      JVal.undef ("equals")) = fun item => (getPropD item key).isUndef := by
    funext item
    show jsStrictEq (getPropD item key) JVal.undef = _
    exact jsStrictEq_undef_right _
  refine ⟨?_, ?_, rfl, ?_⟩
  · have h := findCompare_ok key JVal.undef ("equals") xs hread
    rw [hpred] at h
    simp only [findValue, h]
  · have h := filterCompare_ok key JVal.undef ("equals") xs hread
    rw [hpred] at h
    simp only [filterValue, h]
  · intro fields
    cases hl : fields.lookup key with
    | none => simp [getPropD, getProp, getPropPure, hl, JVal.isUndef]
    | some w =>
        cases w <;> simp [getPropD, getProp, getPropPure, hl, JVal.isUndef]

/-- Witness for C10 at concrete inputs: on [{k:1},{}] with key k and an
undefined matchValue, find returns the record without the key and filter
returns the one-element array holding it. -/
theorem find_filter_match_undefined_witness :
    findValue (JVal.arr [JVal.obj [("k", JVal.num 1)], JVal.obj []]) ("k")
        JVal.undef ("equals") = Except.ok (JVal.obj [])
    ∧ filterValue (JVal.arr [JVal.obj [("k", JVal.num 1)], JVal.obj []])
        ("k") JVal.undef ("equals")
        = Except.ok (JVal.arr [JVal.obj []]) := by
  have h := find_filter_match_undefined [JVal.obj [("k", JVal.num 1)],
    JVal.obj []] ("k") (by decide)
  exact ⟨h.1, h.2.1⟩
